import Mathlib

/-!
Verification of the forecast-sense analytics dashboard's computational core.

The repository is a client-side dashboard: CSV rows are parsed into records,
grouped into monthly buckets, averaged, and fed to a Pearson-correlation
estimator and a maintenance heuristic.  This file gives a shallow embedding of
those computations over exact rationals (JS `number` arithmetic idealised as
`ℚ`, with `ℝ` only where the code calls `Math.sqrt`) and proves the stated
properties of the aggregation, correlation, ingestion and heuristic logic.
-/

namespace ForecastSense

/-! ## JavaScript arithmetic primitives -/

/-- Embedding of JavaScript `Math.round`: round half toward positive infinity
(`Math.round x = ⌊x + 0.5⌋`). -/
def jsRound (q : ℚ) : ℤ := ⌊q + 1/2⌋

/-- Embedding of `parseFloat(x.toFixed(2))`: rounding to two decimal places
(idealised to exact rounding of the rational value). -/
def round2 (q : ℚ) : ℚ := (jsRound (q * 100) : ℚ) / 100

/-- Embedding of the JavaScript expression `x || d` on an optional numeric
field: `undefined` and `0` are falsy and yield the default `d`; any other
number is returned unchanged. -/
def jsOr (o : Option ℚ) (d : ℚ) : ℚ :=
  match o with
  | none => d
  | some v => if v = 0 then d else v

/-- Embedding of `arr.reduce((s, v) => s + v, 0) / arr.length || 0`: the
arithmetic mean of the accumulated values, with the empty case (`0/0 = NaN`
in JS, mapped to `0` by `|| 0`) yielding `0`. -/
def listAvg (vs : List ℚ) : ℚ := if vs = [] then 0 else vs.sum / vs.length

/-! ## Data model

A `Record` is one parsed CSV row.  A metric field is `none` when the column is
absent from the row object (`item.field === undefined`); a present field
carries the numeric value that `parseFloat` produces for it, with non-numeric
text mapped to `0` as every consumer does via `parseFloat(…) || 0`.

The timestamp field has three relevant states, because the bucketing code
guards only falsiness (`if (!item.timestamp) return`) and then calls
`new Date(item.timestamp)` unconditionally:
* `missing` — the field is absent or the empty string (JS falsy): the guard
  skips the record;
* `invalid` — the field is a truthy string `new Date` cannot parse: the guard
  does NOT skip it, the Invalid Date's `getFullYear()`/`getMonth()` are `NaN`,
  and the record is bucketed under the month key `"NaN-NaN"`;
* `valid y m` — a parseable date with the calendar year and month that
  `getFullYear()` / `getMonth() + 1` extract (the only components bucketing
  reads). -/

structure Timestamp where
  year : ℕ
  month : ℕ
deriving DecidableEq, Repr

inductive TimestampField
  | missing
  | invalid
  | valid (t : Timestamp)
deriving DecidableEq, Repr

/-- The numeric part of the month key
`${date.getFullYear()}-${String(date.getMonth()+1).padStart(2,'0')}`, encoded
as `year * 100 + month`.  For the zero-padded `"YYYY-MM"` strings the code
builds, `localeCompare` order coincides with numeric order on this encoding. -/
def monthKey (t : Timestamp) : ℕ := t.year * 100 + t.month

/-- A month key as the grouping `Map` uses it: either a `"YYYY-MM"` string
(encoded numerically, see `monthKey`) or the string `"NaN-NaN"` that every
Invalid Date produces — all unparseable timestamps share this one key. -/
inductive MonthKey
  | ym (k : ℕ)
  | nanKey
deriving DecidableEq, Repr

/-- The comparator order `(a, b) => a.month.localeCompare(b.month)` on month
keys: `"YYYY-MM"` keys compare numerically, and `"NaN-NaN"` sorts after every
`"YYYY-MM"` key because ASCII digits precede the letter `N`. -/
def MonthKey.le : MonthKey → MonthKey → Prop
  | .ym a, .ym b => a ≤ b
  | .ym _, .nanKey => True
  | .nanKey, .ym _ => False
  | .nanKey, .nanKey => True

/-- Strict version of `MonthKey.le`. -/
def MonthKey.lt : MonthKey → MonthKey → Prop
  | .ym a, .ym b => a < b
  | .ym _, .nanKey => True
  | .nanKey, _ => False

instance : LE MonthKey := ⟨MonthKey.le⟩

instance : LT MonthKey := ⟨MonthKey.lt⟩

def MonthKey.leDec : ∀ a b : MonthKey, Decidable (MonthKey.le a b)
  | .ym a, .ym b => Nat.decLe a b
  | .ym _, .nanKey => Decidable.isTrue trivial
  | .nanKey, .ym _ => Decidable.isFalse fun h => h
  | .nanKey, .nanKey => Decidable.isTrue trivial

instance : DecidableRel MonthKey.le := MonthKey.leDec

theorem MonthKey.le_total : ∀ a b : MonthKey, MonthKey.le a b ∨ MonthKey.le b a
  | .ym a, .ym b => Nat.le_total a b
  | .ym _, .nanKey => Or.inl trivial
  | .nanKey, .ym _ => Or.inr trivial
  | .nanKey, .nanKey => Or.inl trivial

theorem MonthKey.le_trans :
    ∀ {a b c : MonthKey}, MonthKey.le a b → MonthKey.le b c → MonthKey.le a c := by
  intro a b c h1 h2
  cases a <;> cases b <;> cases c <;> simp_all [MonthKey.le]
  omega

theorem MonthKey.lt_of_le_of_ne :
    ∀ {a b : MonthKey}, MonthKey.le a b → a ≠ b → MonthKey.lt a b := by
  intro a b h1 h2
  cases a <;> cases b <;> simp_all [MonthKey.le, MonthKey.lt]
  omega

structure Record where
  timestamp : TimestampField
  cpu_usage : Option ℚ
  memory_usage : Option ℚ
  network_traffic : Option ℚ
  power_consumption : Option ℚ
deriving DecidableEq, Repr

instance : Inhabited Record := ⟨⟨.missing, none, none, none, none⟩⟩

/-- The month key the grouping loop computes for a record: `none` when the
falsiness guard `if (!item.timestamp) return` skips it, the shared `"NaN-NaN"`
key when the timestamp is truthy but unparseable, and the `"YYYY-MM"` key
otherwise. -/
def recMonth (r : Record) : Option MonthKey :=
  match r.timestamp with
  | .missing => none
  | .invalid => some MonthKey.nanKey
  | .valid t => some (MonthKey.ym (monthKey t))

/-! ## Monthly aggregator

Embeds the `processedData` computation of `ResourcePredictionChart` (monthly
variant) and the structurally identical metric part of `correlatedData` in
`ExternalEventsChart`: walk the records in order, skip only records whose
timestamp is falsy (missing/empty — unparseable timestamps fall through to
the `"NaN-NaN"` key, see `recMonth`), key a `Map` by month, push the metric
value onto the month's array only when the field is `!== undefined`, then
average each array and sort the buckets by month key.  The per-metric
repetition in the source is captured by the `f : Record → Option ℚ` field
selector. -/

/-- Values pushed for one record: `if (item.f !== undefined) arr.push(parseFloat(item.f) || 0)`. -/
def pushVal (f : Record → Option ℚ) (r : Record) : List ℚ := (f r).toList

/-- One step of the grouping loop over the `Map` of months (modelled as an
association list in insertion order, as a JS `Map` iterates). -/
def insertRecord (f : Record → Option ℚ) (acc : List (MonthKey × List ℚ)) (r : Record) :
    List (MonthKey × List ℚ) :=
  match recMonth r with
  | none => acc
  | some k =>
    if k ∈ acc.map Prod.fst then
      acc.map (fun p => if p.1 = k then (p.1, p.2 ++ pushVal f r) else p)
    else
      acc ++ [(k, pushVal f r)]

/-- The grouping loop `data.forEach(item => { … monthlyData.set/get … })`. -/
def groupByMonth (f : Record → Option ℚ) (rs : List Record) :
    List (MonthKey × List ℚ) :=
  rs.foldl (insertRecord f) []

structure Bucket where
  month : MonthKey
  avg : ℚ
deriving DecidableEq, Repr

/-- Turning one month's accumulated values into the displayed bucket:
`{ month, avg: values.reduce(...)/values.length || 0 }`. -/
def mkBucket (p : MonthKey × List ℚ) : Bucket := ⟨p.1, listAvg p.2⟩

/-- The comparator `(a, b) => a.month.localeCompare(b.month)` (see
`MonthKey.le`). -/
def bucketLE (a b : Bucket) : Prop := MonthKey.le a.month b.month

instance : DecidableRel bucketLE := fun a b => MonthKey.leDec a.month b.month

instance : IsTotal Bucket bucketLE := ⟨fun a b => MonthKey.le_total a.month b.month⟩

instance : IsTrans Bucket bucketLE := ⟨fun _ _ _ h h' => MonthKey.le_trans h h'⟩

/-- The whole monthly aggregation: the `if (!data || data.length === 0) return []`
guard, grouping, averaging, and `.sort((a, b) => a.month.localeCompare(b.month))`. -/
def aggregate (f : Record → Option ℚ) (rs : List Record) : List Bucket :=
  if rs = [] then []
  else List.insertionSort bucketLE ((groupByMonth f rs).map mkBucket)

/-- The records that belong to month key `k`: those the grouping loop files
under that key.  This is the reference assignment the aggregation theorems
relate the accumulated arrays to. -/
def assigned (rs : List Record) (k : MonthKey) : List Record :=
  rs.filter (fun r => decide (recMonth r = some k))

/-- The per-bucket mean exactly as the specification describes it: missing
fields substitute `0` in the numerator but every record assigned to the bucket
counts in the denominator.  Stated from the spec's words only, for comparison
with the aggregation the code performs. -/
def specMean (f : Record → Option ℚ) (rs : List Record) (k : MonthKey) : ℚ :=
  ((assigned rs k).map (fun r => (f r).getD 0)).sum / (assigned rs k).length

/-! ## Correlation estimator

Embeds `calculateCorrelation` in `ExternalEventsChart`.  The Pearson core
works on two equal-length arrays (`metricValues`, `eventValues`); the final
`isNaN(correlation) ? 0 : correlation` guard fires exactly when the summed
squared deviations multiply to `0` (then the numerator is forced to `0` as
well and JS computes `0 / 0 = NaN`), so it is embedded as an explicit test on
that product. -/

/-- The mean `values.reduce((s, v) => s + v, 0) / values.length`. -/
def mean (xs : List ℚ) : ℚ := xs.sum / xs.length

/-- The loop accumulator `numerator += metricDiff * eventDiff`, summed over
the paired entries. -/
def devSum (xs ys : List ℚ) : ℚ :=
  ((xs.zip ys).map (fun p => (p.1 - mean xs) * (p.2 - mean ys))).sum

/-- The loop accumulator `denomMetric += metricDiff * metricDiff`. -/
def devSqFst (xs ys : List ℚ) : ℚ :=
  ((xs.zip ys).map (fun p => (p.1 - mean xs) ^ 2)).sum

/-- The loop accumulator `denomEvents += eventDiff * eventDiff`. -/
def devSqSnd (xs ys : List ℚ) : ℚ :=
  ((xs.zip ys).map (fun p => (p.2 - mean ys) ^ 2)).sum

/-- Sum of squared deviations of a single sequence from its mean; this is `0`
exactly when the sequence has zero variance (is empty or constant). -/
def sqDevSum (xs : List ℚ) : ℚ := (xs.map (fun x => (x - mean xs) ^ 2)).sum

/-- The Pearson correlation of `calculateCorrelation`, lines 340-363: the
`validData.length < 2` early return, the deviation sums, and
`numerator / Math.sqrt(denomMetric * denomEvents)` with the `isNaN` guard. -/
noncomputable def correlate (xs ys : List ℚ) : ℝ :=
  if xs.length < 2 then 0
  else if devSqFst xs ys * devSqSnd xs ys = 0 then 0
  else (devSum xs ys : ℝ) / Real.sqrt ((devSqFst xs ys * devSqSnd xs ys : ℚ) : ℝ)

/-- One monthly bucket as `calculateCorrelation` consumes it: the selected
metric's monthly average (`item[getMetricData(selectedMetric)]`) and the
month's event count.  The other metric averages play no role in the estimator
and are elided from this view. -/
structure EBucket where
  metricAvg : ℚ
  eventCount : ℕ
deriving DecidableEq, Repr

/-- The truthiness filter `item => item[getMetricData(selectedMetric)] && item.event_count`:
a JS number is truthy iff it is nonzero (the averages are never `NaN` here —
empty value arrays already collapse to `0` via `|| 0`). -/
def validBucket (b : EBucket) : Bool :=
  decide (b.metricAvg ≠ 0) && decide (b.eventCount ≠ 0)

/-- The full `calculateCorrelation`: filter the buckets to the "valid" ones,
then run the Pearson core on the two projected sequences. -/
noncomputable def calculateCorrelation (bs : List EBucket) : ℝ :=
  correlate ((bs.filter validBucket).map EBucket.metricAvg)
    ((bs.filter validBucket).map (fun b => (b.eventCount : ℚ)))

/-! ## Whole-dataset summary statistics

Embeds `calculateMetrics` in `DatabaseMetricsGrid` (the `trendPercent`
display string — a `toFixed(1)` rendering of a 30-day window comparison — is
presentation-only and not part of any claimed property, so it is omitted). -/

/-- The high-load-day test
`(item.cpu_usage || 0) > 80 || (item.memory_usage || 0) > 85 || (item.network_traffic || 0) > 90`. -/
def isHighLoad (r : Record) : Bool :=
  decide (80 < jsOr r.cpu_usage 0) || decide (85 < jsOr r.memory_usage 0) ||
    decide (90 < jsOr r.network_traffic 0)

structure Metrics where
  totalInputs : ℕ
  dailyAverage : ℤ
  cpuAvg : ℚ
  memoryAvg : ℚ
  networkAvg : ℚ
  highLoadDays : ℕ
deriving DecidableEq, Repr

/-- `calculateMetrics`: `null` (here `none`) on an empty dataset, otherwise
the whole-dataset reductions.  Every record counts in `totalInputs` and in the
averages' denominators regardless of its timestamp. -/
def calculateMetrics (rs : List Record) : Option Metrics :=
  if rs = [] then none
  else some
    { totalInputs := rs.length
      dailyAverage := jsRound ((rs.length : ℚ) / 365)
      cpuAvg := (rs.map (fun r => jsOr r.cpu_usage 0)).sum / rs.length
      memoryAvg := (rs.map (fun r => jsOr r.memory_usage 0)).sum / rs.length
      networkAvg := (rs.map (fun r => jsOr r.network_traffic 0)).sum / rs.length
      highLoadDays := (rs.filter isHighLoad).length }

/-! ## Maintenance heuristic

Embeds `maintenanceTasks` in `MaintenancePredictions`.  The model keeps the
data-dependent descriptor fields (id, status, severity and the computed
vacuuming estimate); the interpolated description strings, icon components and
constant display strings carry no logic and are omitted. -/

structure MaintenanceTask where
  id : String
  status : String
  severity : String
  estimatedTime : ℤ
deriving DecidableEq, Repr

/-- `maintenanceTasks`: `[]` for an empty dataset (the `if (!data.length)`
guard), otherwise the fixed three-task table whose severities and statuses
come from threshold comparisons on the dataset statistics. -/
def maintenanceTasks (rs : List Record) : List MaintenanceTask :=
  if rs = [] then []
  else
    let totalInputs : ℕ := rs.length
    let avgCpuUsage : ℚ := (rs.map (fun r => jsOr r.cpu_usage 0)).sum / rs.length
    let highUsageDays : ℕ :=
      (rs.filter (fun r =>
        decide (80 < jsOr r.cpu_usage 0) || decide (85 < jsOr r.memory_usage 0))).length
    let estimatedTime : ℤ := jsRound ((totalInputs : ℚ) / 100000 * 24)
    [ { id := "vacuum"
        status := if 50 < highUsageDays then "Required" else "Scheduled"
        severity := if 50 < highUsageDays then "high" else "medium"
        estimatedTime := estimatedTime },
      { id := "index"
        status := if 75 < avgCpuUsage then "Recommended" else "Optimal"
        severity := if 75 < avgCpuUsage then "medium" else "low"
        estimatedTime := 1 },
      { id := "statistics"
        status := "Scheduled"
        severity := "medium"
        estimatedTime := 1 } ]

/-! ## Daily view with growth percentages

Embeds `processedData` of `ResourcePredictionChart` (daily variant): each
record is one displayed day; growth rates compare a record's raw metric with
the previous record's, guarded by `prev > 0`, and every stored number passes
through `parseFloat(x.toFixed(2))`. -/

/-- The growth computation
`prev > 0 ? ((current - prev) / prev) * 100 : 0` (applied per metric). -/
def dailyGrowth (prev cur : ℚ) : ℚ :=
  if 0 < prev then (cur - prev) / prev * 100 else 0

structure DailyEntry where
  cpu_avg : ℚ
  memory_avg : ℚ
  network_avg : ℚ
  power_avg : ℚ
  cpu_growth : ℚ
  memory_growth : ℚ
  network_growth : ℚ
deriving DecidableEq, Repr

instance : Inhabited DailyEntry := ⟨⟨0, 0, 0, 0, 0, 0, 0⟩⟩

/-- One entry of the daily view, given the previous record (if `index > 0`)
and the current one.  The date/fullDate display fields (string formatting and
a deterministic fallback date) are omitted. -/
def mkDailyEntry (prev : Option Record) (r : Record) : DailyEntry :=
  { cpu_avg := round2 (jsOr r.cpu_usage 0)
    memory_avg := round2 (jsOr r.memory_usage 0)
    network_avg := round2 (jsOr r.network_traffic 0)
    power_avg := round2 (jsOr r.power_consumption 0)
    cpu_growth := round2 (match prev with
      | none => 0
      | some p => dailyGrowth (jsOr p.cpu_usage 0) (jsOr r.cpu_usage 0))
    memory_growth := round2 (match prev with
      | none => 0
      | some p => dailyGrowth (jsOr p.memory_usage 0) (jsOr r.memory_usage 0))
    network_growth := round2 (match prev with
      | none => 0
      | some p => dailyGrowth (jsOr p.network_traffic 0) (jsOr r.network_traffic 0)) }

/-- The daily `processedData`: the `if (!data || data.length === 0) return []`
guard, then `data.map((item, index) => …)` where `index > 0` reads
`data[index - 1]`. -/
def dailyProcessed (rs : List Record) : List DailyEntry :=
  if rs = [] then []
  else rs.enum.map (fun p =>
    mkDailyEntry (match p.1 with | 0 => none | Nat.succ i => rs.get? i) p.2)

/-! ## Capacity chart (simulated daily inputs)

Embeds `processedData` of `DatabaseCapacityChart`.  `dailyInputs` mixes the
record's metrics with `Math.random()`; the random source is made explicit as a
stream `rand : ℕ → ℚ` of the values drawn (one per array index, each in
`[0, 1)`).  The formatted date strings are omitted. -/

structure CapEntry where
  dailyInputs : ℤ
  cpuUsage : ℚ
  memoryUsage : ℚ
  networkTraffic : ℚ
  powerConsumption : ℚ
deriving DecidableEq, Repr

/-- The metric fields of a capacity entry — everything except the simulated
`dailyInputs`. -/
def CapEntry.metrics (e : CapEntry) : ℚ × ℚ × ℚ × ℚ :=
  (e.cpuUsage, e.memoryUsage, e.networkTraffic, e.powerConsumption)

/-- One capacity entry:
`baseInputs = Math.round((cpu || 50) * 10 + (mem || 50) * 5)`,
`variation = Math.random() * 400 - 200`,
`dailyInputs = Math.round(Math.max(0, baseInputs + variation))`. -/
def mkCapEntry (rnd : ℚ) (r : Record) : CapEntry :=
  { dailyInputs :=
      jsRound (max 0 ((jsRound (jsOr r.cpu_usage 50 * 10 + jsOr r.memory_usage 50 * 5) : ℚ)
        + (rnd * 400 - 200)))
    cpuUsage := jsOr r.cpu_usage 0
    memoryUsage := jsOr r.memory_usage 0
    networkTraffic := jsOr r.network_traffic 0
    powerConsumption := jsOr r.power_consumption 0 }

/-- The capacity chart's `processedData`, parameterised by the stream of
`Math.random()` draws. -/
def capacityProcessed (rand : ℕ → ℚ) (rs : List Record) : List CapEntry :=
  if rs = [] then []
  else rs.enum.map (fun p => mkCapEntry (rand p.1) p.2)

/-! ## CSV ingestion and data loading

Embeds `processFile` / `handleLoadData` in `FileUpload`.  A Papa.parse outcome
is its row data plus the list of diagnostic messages; on any error the file
status becomes `error` carrying `results.errors[0].message` and no data, and
`handleLoadData` replaces the loaded records only when parsed data is present
(`if (predictionFile?.data)`). -/

structure ParseResult where
  data : List Record
  errors : List String
deriving DecidableEq, Repr

inductive UploadStatus
  | pending
  | uploading
  | complete
  | error
deriving DecidableEq, Repr

structure FileStatus where
  status : UploadStatus
  err : Option String
  data : Option (List Record)
deriving DecidableEq, Repr

/-- The `complete:` callback of `Papa.parse`: with any diagnostics, the status
is `error` with the first message and the promise rejects (no data recorded);
otherwise the parsed rows are stored and the status is `complete`. -/
def parseComplete (res : ParseResult) : FileStatus :=
  match res.errors with
  | e :: _ => { status := .error, err := some e, data := none }
  | [] => { status := .complete, err := none, data := some res.data }

/-- `handleLoadData` as it affects the loaded record sequence: commit the
parsed data when present, otherwise leave the current sequence unchanged. -/
def handleLoadData (fs : FileStatus) (current : List Record) : List Record :=
  match fs.data with
  | some d => d
  | none => current

/-! ## Lemmas about the monthly grouping loop -/

theorem filterMap_singleton (f : Record → Option ℚ) (r : Record) :
    List.filterMap f [r] = pushVal f r := by
  cases h : f r <;> simp [List.filterMap_cons, pushVal, h]

theorem assigned_nil (k : MonthKey) : assigned [] k = [] := rfl

theorem assigned_append (rs₁ rs₂ : List Record) (k : MonthKey) :
    assigned (rs₁ ++ rs₂) k = assigned rs₁ k ++ assigned rs₂ k := by
  simp [assigned]

theorem assigned_singleton_of_month {r : Record} {k : MonthKey}
    (h : recMonth r = some k) : assigned [r] k = [r] := by
  simp [assigned, h]

theorem assigned_singleton_of_ne {r : Record} {k : MonthKey}
    (h : recMonth r ≠ some k) : assigned [r] k = [] := by
  simp [assigned, h]

/-- The invariant the grouping loop maintains over its `Map`: keys are unique,
a key is present exactly when some processed record has that month, and each
key's array holds exactly the present metric values of the records assigned
to it, in order. -/
def GroupInv (f : Record → Option ℚ) (rs : List Record)
    (acc : List (MonthKey × List ℚ)) : Prop :=
  (acc.map Prod.fst).Nodup ∧
  (∀ k : MonthKey, k ∈ acc.map Prod.fst ↔ assigned rs k ≠ []) ∧
  (∀ p ∈ acc, p.2 = (assigned rs p.1).filterMap f)

theorem groupInv_step (f : Record → Option ℚ) (rs : List Record)
    (acc : List (MonthKey × List ℚ)) (r : Record) (h : GroupInv f rs acc) :
    GroupInv f (rs ++ [r]) (insertRecord f acc r) := by
  obtain ⟨hnd, hmem, hval⟩ := h
  cases hm : recMonth r with
  | none =>
    have hass : ∀ k, assigned (rs ++ [r]) k = assigned rs k := by
      intro k
      rw [assigned_append, assigned_singleton_of_ne (by simp [hm]), List.append_nil]
    simp only [insertRecord, hm]
    exact ⟨hnd, fun k => (hass k) ▸ hmem k, fun p hp => (hass p.1) ▸ hval p hp⟩
  | some k0 =>
    have hassne : ∀ k, k ≠ k0 → assigned (rs ++ [r]) k = assigned rs k := by
      intro k hk
      rw [assigned_append,
        assigned_singleton_of_ne (by rw [hm]; exact fun hc => hk (Option.some_injective _ hc).symm),
        List.append_nil]
    have hasseq : assigned (rs ++ [r]) k0 = assigned rs k0 ++ [r] := by
      rw [assigned_append, assigned_singleton_of_month hm]
    simp only [insertRecord, hm]
    by_cases hk : k0 ∈ acc.map Prod.fst
    · rw [if_pos hk]
      have hkeys :
          ((acc.map (fun p => if p.1 = k0 then (p.1, p.2 ++ pushVal f r) else p)).map Prod.fst)
            = acc.map Prod.fst := by
        rw [List.map_map]
        refine List.map_congr_left ?_
        intro p _
        by_cases hpk : p.1 = k0 <;> simp [hpk]
      refine ⟨hkeys ▸ hnd, ?_, ?_⟩
      · intro k
        rw [hkeys]
        by_cases hkk : k = k0
        · subst hkk
          rw [hasseq]
          exact ⟨fun _ => by simp, fun _ => hk⟩
        · rw [hassne k hkk]
          exact hmem k
      · intro p hp
        obtain ⟨q, hq, hgq⟩ := List.mem_map.mp hp
        by_cases hqk : q.1 = k0
        · rw [if_pos hqk] at hgq
          subst hgq
          show q.2 ++ pushVal f r = (assigned (rs ++ [r]) q.1).filterMap f
          rw [hqk, hasseq, List.filterMap_append, filterMap_singleton, ← hqk, ← hval q hq]
        · rw [if_neg hqk] at hgq
          subst hgq
          rw [hassne q.1 hqk]
          exact hval q hq
    · rw [if_neg hk]
      have hempty : assigned rs k0 = [] := by
        by_contra hne
        exact hk ((hmem k0).mpr hne)
      refine ⟨?_, ?_, ?_⟩
      · rw [List.map_append]
        rw [List.nodup_append]
        refine ⟨hnd, by simp, ?_⟩
        intro a ha hb
        rw [List.mem_map] at hb
        obtain ⟨p, hp, hpa⟩ := hb
        rw [List.mem_singleton] at hp
        subst hp
        have hk0a : k0 = a := hpa
        subst hk0a
        exact hk ha
      · intro k
        rw [List.map_append]
        by_cases hkk : k = k0
        · subst hkk
          rw [hasseq]
          exact ⟨fun _ => by simp, fun _ => by simp⟩
        · rw [hassne k hkk, List.mem_append]
          constructor
          · rintro (hka | hka)
            · exact (hmem k).mp hka
            · simp at hka
              exact absurd hka hkk
          · intro hne
            exact Or.inl ((hmem k).mpr hne)
      · intro p hp
        rw [List.mem_append] at hp
        rcases hp with hp | hp
        · have hp1 : p.1 ≠ k0 := by
            intro hc
            exact hk (hc ▸ List.mem_map_of_mem Prod.fst hp)
          rw [hassne p.1 hp1]
          exact hval p hp
        · rw [List.mem_singleton] at hp
          subst hp
          show pushVal f r = (assigned (rs ++ [r]) k0).filterMap f
          rw [hasseq, hempty, List.nil_append, filterMap_singleton]

theorem groupByMonth_concat (f : Record → Option ℚ) (rs : List Record) (r : Record) :
    groupByMonth f (rs ++ [r]) = insertRecord f (groupByMonth f rs) r := by
  rw [groupByMonth, List.foldl_append]
  rfl

theorem groupByMonth_inv (f : Record → Option ℚ) (rs : List Record) :
    GroupInv f rs (groupByMonth f rs) := by
  induction rs using List.reverseRecOn with
  | nil => exact ⟨by simp [groupByMonth], fun k => by simp [groupByMonth, assigned_nil],
      fun p hp => by simp [groupByMonth] at hp⟩
  | append_singleton l r ih =>
    rw [groupByMonth_concat]
    exact groupInv_step f l _ r ih

/-! ## Lemmas about `aggregate` -/

theorem aggregate_perm (f : Record → Option ℚ) (rs : List Record) (h : rs ≠ []) :
    List.Perm (aggregate f rs) ((groupByMonth f rs).map mkBucket) := by
  rw [aggregate, if_neg h]
  exact List.perm_insertionSort bucketLE _

theorem aggregate_months_nodup (f : Record → Option ℚ) (rs : List Record) :
    ((aggregate f rs).map Bucket.month).Nodup := by
  by_cases h : rs = []
  · simp [aggregate, h]
  · have h1 : ((groupByMonth f rs).map mkBucket).map Bucket.month
        = (groupByMonth f rs).map Prod.fst := by
      rw [List.map_map]
      rfl
    exact (List.Perm.nodup_iff ((aggregate_perm f rs h).map Bucket.month)).mpr
      (h1 ▸ (groupByMonth_inv f rs).1)

theorem aggregate_months_sorted (f : Record → Option ℚ) (rs : List Record) :
    ((aggregate f rs).map Bucket.month).Sorted (· < ·) := by
  by_cases h : rs = []
  · simp [aggregate, h]
  · have hle : (aggregate f rs).Pairwise bucketLE := by
      rw [aggregate, if_neg h]
      exact List.sorted_insertionSort bucketLE _
    have hne : (aggregate f rs).Pairwise (fun a b => a.month ≠ b.month) :=
      List.pairwise_map.mp (aggregate_months_nodup f rs)
    rw [List.Sorted, List.pairwise_map]
    exact (hle.and hne).imp fun hab => MonthKey.lt_of_le_of_ne hab.1 hab.2

theorem aggregate_avg (f : Record → Option ℚ) (rs : List Record) (b : Bucket)
    (hb : b ∈ aggregate f rs) :
    b.avg = listAvg ((assigned rs b.month).filterMap f) := by
  by_cases h : rs = []
  · rw [aggregate, if_pos h] at hb
    cases hb
  · have hb' : b ∈ (groupByMonth f rs).map mkBucket := (aggregate_perm f rs h).mem_iff.mp hb
    obtain ⟨p, hp, hpb⟩ := List.mem_map.mp hb'
    subst hpb
    show listAvg p.2 = listAvg ((assigned rs p.1).filterMap f)
    rw [(groupByMonth_inv f rs).2.2 p hp]

theorem insertRecord_missingTimestamp (f : Record → Option ℚ)
    (acc : List (MonthKey × List ℚ)) (r : Record)
    (h : r.timestamp = TimestampField.missing) : insertRecord f acc r = acc := by
  simp only [insertRecord, recMonth, h]

theorem groupByMonth_drop_missingTimestamp (f : Record → Option ℚ)
    (rs₁ rs₂ : List Record) (r : Record) (h : r.timestamp = TimestampField.missing) :
    groupByMonth f (rs₁ ++ r :: rs₂) = groupByMonth f (rs₁ ++ rs₂) := by
  rw [groupByMonth, groupByMonth, List.foldl_append, List.foldl_append, List.foldl_cons,
    insertRecord_missingTimestamp f _ r h]

theorem aggregate_drop_missingTimestamp (f : Record → Option ℚ) (rs₁ rs₂ : List Record)
    (r : Record) (h : r.timestamp = TimestampField.missing) :
    aggregate f (rs₁ ++ r :: rs₂) = aggregate f (rs₁ ++ rs₂) := by
  have hne : rs₁ ++ r :: rs₂ ≠ [] := by simp
  by_cases h2 : rs₁ ++ rs₂ = []
  · obtain ⟨h3, h4⟩ := List.append_eq_nil.mp h2
    subst h3
    subst h4
    simp only [List.nil_append]
    rw [aggregate, if_neg (by simp : (r :: [] : List Record) ≠ []), aggregate, if_pos rfl]
    rw [show groupByMonth f [r] = [] from by
      rw [groupByMonth, List.foldl_cons, insertRecord_missingTimestamp f [] r h]
      rfl]
    rfl
  · rw [aggregate, if_neg hne, aggregate, if_neg h2,
      groupByMonth_drop_missingTimestamp f rs₁ rs₂ r h]

/-! ## Lemmas about the correlation estimator -/

theorem sum_map_eq_finSum {α : Type} (l : List α) (g : α → ℚ) :
    (l.map g).sum = ∑ i : Fin l.length, g (l.get i) := by
  rw [← List.ofFn_getElem_eq_map l g, Fin.sum_ofFn]
  rfl

/-- Cauchy-Schwarz for sums over a list, in the squared form matching the
loop accumulators of `calculateCorrelation`. -/
theorem list_cauchy_schwarz (l : List (ℚ × ℚ)) (f g : ℚ × ℚ → ℚ) :
    (l.map (fun p => f p * g p)).sum ^ 2 ≤
      (l.map (fun p => f p ^ 2)).sum * (l.map (fun p => g p ^ 2)).sum := by
  rw [sum_map_eq_finSum, sum_map_eq_finSum, sum_map_eq_finSum]
  exact Finset.sum_mul_sq_le_sq_mul_sq Finset.univ
    (fun i => f (l.get i)) (fun i => g (l.get i))

theorem devSum_sq_le (xs ys : List ℚ) :
    devSum xs ys ^ 2 ≤ devSqFst xs ys * devSqSnd xs ys :=
  list_cauchy_schwarz (xs.zip ys) (fun p => p.1 - mean xs) (fun p => p.2 - mean ys)

theorem devSqFst_nonneg (xs ys : List ℚ) : 0 ≤ devSqFst xs ys := by
  refine List.sum_nonneg ?_
  intro x hx
  obtain ⟨p, _, hpx⟩ := List.mem_map.mp hx
  exact hpx ▸ sq_nonneg _

theorem devSqSnd_nonneg (xs ys : List ℚ) : 0 ≤ devSqSnd xs ys := by
  refine List.sum_nonneg ?_
  intro x hx
  obtain ⟨p, _, hpx⟩ := List.mem_map.mp hx
  exact hpx ▸ sq_nonneg _

theorem devSqFst_eq_sqDevSum (xs ys : List ℚ) (h : xs.length = ys.length) :
    devSqFst xs ys = sqDevSum xs := by
  rw [devSqFst, sqDevSum,
    show (fun p : ℚ × ℚ => (p.1 - mean xs) ^ 2) = (fun x => (x - mean xs) ^ 2) ∘ Prod.fst from
      rfl,
    ← List.map_map, List.map_fst_zip xs ys h.le]

theorem devSqSnd_eq_sqDevSum (xs ys : List ℚ) (h : xs.length = ys.length) :
    devSqSnd xs ys = sqDevSum ys := by
  rw [devSqSnd, sqDevSum,
    show (fun p : ℚ × ℚ => (p.2 - mean ys) ^ 2) = (fun y => (y - mean ys) ^ 2) ∘ Prod.snd from
      rfl,
    ← List.map_map, List.map_snd_zip xs ys h.ge]

/-- The Pearson value is always inside `[-1, 1]`: the degenerate branches
return `0` and the main branch is bounded by Cauchy-Schwarz. -/
theorem correlate_mem_Icc (xs ys : List ℚ) : correlate xs ys ∈ Set.Icc (-1 : ℝ) 1 := by
  rw [correlate]
  by_cases h1 : xs.length < 2
  · rw [if_pos h1]
    constructor <;> norm_num
  rw [if_neg h1]
  by_cases h2 : devSqFst xs ys * devSqSnd xs ys = 0
  · rw [if_pos h2]
    constructor <;> norm_num
  rw [if_neg h2]
  have hD : 0 < devSqFst xs ys * devSqSnd xs ys :=
    lt_of_le_of_ne (mul_nonneg (devSqFst_nonneg xs ys) (devSqSnd_nonneg xs ys)) (Ne.symm h2)
  have hDr : (0 : ℝ) < ((devSqFst xs ys * devSqSnd xs ys : ℚ) : ℝ) := by
    exact_mod_cast hD
  have hcs : ((devSum xs ys : ℚ) : ℝ) ^ 2 ≤ ((devSqFst xs ys * devSqSnd xs ys : ℚ) : ℝ) := by
    exact_mod_cast devSum_sq_le xs ys
  have habs : |((devSum xs ys : ℚ) : ℝ)|
      ≤ Real.sqrt ((devSqFst xs ys * devSqSnd xs ys : ℚ) : ℝ) := by
    rw [← Real.sqrt_sq_eq_abs]
    exact Real.sqrt_le_sqrt hcs
  have hsq : 0 < Real.sqrt ((devSqFst xs ys * devSqSnd xs ys : ℚ) : ℝ) :=
    Real.sqrt_pos.mpr hDr
  rw [Set.mem_Icc, ← abs_le, abs_div, abs_of_nonneg hsq.le]
  rw [div_le_one hsq]
  exact habs

theorem correlate_selfExample : correlate [1, 2, 3] [1, 2, 3] = 1 := by
  rw [correlate, if_neg (by norm_num),
    if_neg (by norm_num [devSqFst, devSqSnd, mean, List.zip]),
    show devSum [1, 2, 3] [1, 2, 3] = 2 from by norm_num [devSum, mean, List.zip],
    show devSqFst [1, 2, 3] [1, 2, 3] * devSqSnd [1, 2, 3] [1, 2, 3] = 4 from by
      norm_num [devSqFst, devSqSnd, mean, List.zip],
    show ((4 : ℚ) : ℝ) = 2 ^ 2 from by norm_num,
    Real.sqrt_sq (by norm_num : (0 : ℝ) ≤ 2)]
  norm_num

theorem jsRound_ofInt (n : ℤ) : jsRound ((n : ℚ)) = n := by
  refine Int.floor_eq_iff.mpr ⟨?_, ?_⟩ <;> norm_num

theorem round2_zero : round2 0 = 0 := by
  have h : jsRound ((0 : ℚ) * 100) = 0 := by
    have := jsRound_ofInt 0
    simpa using this
  rw [round2, h]
  norm_num

theorem correlate_reverseExample : correlate [1, 2, 3] [3, 2, 1] = -1 := by
  rw [correlate, if_neg (by norm_num),
    if_neg (by norm_num [devSqFst, devSqSnd, mean, List.zip]),
    show devSum [1, 2, 3] [3, 2, 1] = -2 from by norm_num [devSum, mean, List.zip],
    show devSqFst [1, 2, 3] [3, 2, 1] * devSqSnd [1, 2, 3] [3, 2, 1] = 4 from by
      norm_num [devSqFst, devSqSnd, mean, List.zip],
    show ((4 : ℚ) : ℝ) = 2 ^ 2 from by norm_num,
    Real.sqrt_sq (by norm_num : (0 : ℝ) ≤ 2)]
  norm_num

/-! ## Claim theorems -/

/-- C1: for every pair of input sequences handed to the correlation estimator
(they always have equal length, being parallel projections of `validData`),
if either sequence has fewer than 2 data points or has zero variance (zero
sum of squared deviations from its mean), the computed correlation
coefficient is exactly 0.  `correlate` is a total function, so the result is
in particular never `NaN` and never an error. -/
theorem claim1_degenerate_correlation_zero (xs ys : List ℚ)
    (hlen : xs.length = ys.length)
    (h : xs.length < 2 ∨ sqDevSum xs = 0 ∨ sqDevSum ys = 0) :
    correlate xs ys = 0 := by
  by_cases h1 : xs.length < 2
  · rw [correlate, if_pos h1]
  · have h2 : devSqFst xs ys * devSqSnd xs ys = 0 := by
      rcases h with h | h | h
      · exact absurd h h1
      · rw [devSqFst_eq_sqDevSum xs ys hlen, h, zero_mul]
      · rw [devSqSnd_eq_sqDevSum xs ys hlen, h, mul_zero]
    rw [correlate, if_neg h1, if_pos h2]

theorem claim1_degenerate_correlation_zero_witness :
    (([5, 5, 5] : List ℚ).length = ([1, 2, 3] : List ℚ).length ∧
        sqDevSum [5, 5, 5] = 0) ∧
      correlate [5, 5, 5] [1, 2, 3] = 0 :=
  ⟨⟨rfl, by norm_num [sqDevSum, mean]⟩,
    claim1_degenerate_correlation_zero [5, 5, 5] [1, 2, 3] rfl
      (Or.inr (Or.inl (by norm_num [sqDevSum, mean])))⟩

/-- C5: for equal-length sequences of length at least 2 with nonzero variance
in both, the correlation lies in `[-1, 1]`; and on the spec's two examples it
is exactly `1` and exactly `-1`. -/
theorem claim5_correlation_bounded :
    (∀ xs ys : List ℚ, xs.length = ys.length → 2 ≤ xs.length →
        sqDevSum xs ≠ 0 → sqDevSum ys ≠ 0 → correlate xs ys ∈ Set.Icc (-1 : ℝ) 1) ∧
      correlate [1, 2, 3] [1, 2, 3] = 1 ∧ correlate [1, 2, 3] [3, 2, 1] = -1 :=
  ⟨fun xs ys _ _ _ _ => correlate_mem_Icc xs ys,
    correlate_selfExample, correlate_reverseExample⟩

theorem claim5_correlation_bounded_witness :
    (([1, 2, 3] : List ℚ).length = ([2, 4, 7] : List ℚ).length ∧
        2 ≤ ([1, 2, 3] : List ℚ).length ∧
        sqDevSum [1, 2, 3] ≠ 0 ∧ sqDevSum [2, 4, 7] ≠ 0) ∧
      correlate [1, 2, 3] [2, 4, 7] ∈ Set.Icc (-1 : ℝ) 1 :=
  ⟨⟨rfl, by norm_num, by norm_num [sqDevSum, mean], by norm_num [sqDevSum, mean]⟩,
    claim5_correlation_bounded.1 [1, 2, 3] [2, 4, 7] rfl (by norm_num)
      (by norm_num [sqDevSum, mean]) (by norm_num [sqDevSum, mean])⟩

/-- C10: the correlation estimator drops every bucket whose selected metric
average is zero or whose event count is zero before anything else happens:
dropping such a bucket leaves the result unchanged, and the fewer-than-2
check applies to the surviving buckets, not the original ones. -/
theorem claim10_zero_buckets_excluded :
    (∀ (bs₁ bs₂ : List EBucket) (b : EBucket), b.metricAvg = 0 ∨ b.eventCount = 0 →
        calculateCorrelation (bs₁ ++ b :: bs₂) = calculateCorrelation (bs₁ ++ bs₂)) ∧
      ∀ bs : List EBucket, (bs.filter validBucket).length < 2 →
        calculateCorrelation bs = 0 := by
  constructor
  · intro bs₁ bs₂ b hb
    have hv : validBucket b = false := by
      rcases hb with hb | hb <;> simp [validBucket, hb]
    have hfilter : (bs₁ ++ b :: bs₂).filter validBucket
        = (bs₁ ++ bs₂).filter validBucket := by
      simp [List.filter_append, List.filter_cons, hv]
    rw [calculateCorrelation, calculateCorrelation, hfilter]
  · intro bs hlen
    rw [calculateCorrelation, correlate, if_pos (by simpa using hlen)]

theorem claim10_zero_buckets_excluded_witness :
    (EBucket.mk 0 5).metricAvg = 0 ∧
      calculateCorrelation [EBucket.mk 0 5, EBucket.mk 1 1, EBucket.mk 2 1]
        = calculateCorrelation [EBucket.mk 1 1, EBucket.mk 2 1] :=
  ⟨rfl, claim10_zero_buckets_excluded.1 [] [EBucket.mk 1 1, EBucket.mk 2 1]
    (EBucket.mk 0 5) (Or.inl rfl)⟩

/-- C3: for every non-empty record sequence, the monthly aggregator returns
buckets whose period keys are sorted strictly ascending, hence with no two
buckets sharing a key. -/
theorem claim3_buckets_sorted_unique (f : Record → Option ℚ) (rs : List Record)
    (_h : rs ≠ []) :
    ((aggregate f rs).map Bucket.month).Sorted (· < ·) ∧
      ((aggregate f rs).map Bucket.month).Nodup :=
  ⟨aggregate_months_sorted f rs, aggregate_months_nodup f rs⟩

theorem claim3_buckets_sorted_unique_witness :
    ([Record.mk (TimestampField.valid (Timestamp.mk 2025 2)) (some 1) none none none,
      Record.mk (TimestampField.valid (Timestamp.mk 2025 1)) (some 4) none none none] ≠
        ([] : List Record)) ∧
      ((aggregate Record.cpu_usage
          [Record.mk (TimestampField.valid (Timestamp.mk 2025 2)) (some 1) none none none,
           Record.mk (TimestampField.valid (Timestamp.mk 2025 1)) (some 4) none none none]).map
        Bucket.month).Sorted (· < ·) :=
  ⟨by simp,
    (claim3_buckets_sorted_unique Record.cpu_usage _ (by simp)).1⟩

/-- C2 (amended): for every bucket the monthly aggregator produces, the
computed mean of a tracked metric equals the sum of the metric values of the
records assigned to the bucket whose field is present, divided by the count
of those present-field records only (and is 0 when no assigned record has
the field).  Records whose metric field is absent are excluded from the
numerator and the denominator alike. -/
theorem claim2_bucket_mean_present_fields (f : Record → Option ℚ) (rs : List Record)
    (b : Bucket) (hb : b ∈ aggregate f rs) :
    b.avg = listAvg ((assigned rs b.month).filterMap f) :=
  aggregate_avg f rs b hb

theorem claim2_bucket_mean_present_fields_witness :
    Bucket.mk (MonthKey.ym 202501) 4 ∈ aggregate Record.cpu_usage
        [Record.mk (TimestampField.valid (Timestamp.mk 2025 1)) (some 4) none none none] ∧
      (Bucket.mk (MonthKey.ym 202501) 4).avg = listAvg
        ((assigned [Record.mk (TimestampField.valid (Timestamp.mk 2025 1)) (some 4) none none none]
          (MonthKey.ym 202501)).filterMap Record.cpu_usage) := by
  have hmem : Bucket.mk (MonthKey.ym 202501) 4 ∈ aggregate Record.cpu_usage
      [Record.mk (TimestampField.valid (Timestamp.mk 2025 1)) (some 4) none none none] := by
    rw [show aggregate Record.cpu_usage
        [Record.mk (TimestampField.valid (Timestamp.mk 2025 1)) (some 4) none none none]
        = [Bucket.mk (MonthKey.ym 202501) 4] from by
      rw [aggregate, if_neg (by simp :
        ¬([Record.mk (TimestampField.valid (Timestamp.mk 2025 1)) (some 4) none none none] = []))]
      norm_num [groupByMonth, insertRecord, recMonth, monthKey, pushVal,
        mkBucket, listAvg, List.insertionSort, List.orderedInsert, List.foldl]]
    exact List.mem_singleton_self _
  exact ⟨hmem, claim2_bucket_mean_present_fields Record.cpu_usage _ _ hmem⟩

/-- C2 counterexample: a January-2025 bucket holds one record with
`cpu_usage = 10` and one record lacking the field.  The aggregator computes
the mean `10` (the absent field is skipped by the `!== undefined` guard, so
the second record is missing from the denominator), while the claimed
present-or-zero-over-all-assigned-records mean is `(10 + 0) / 2 = 5`. -/
theorem claim2_bucket_mean_counterexample :
    aggregate Record.cpu_usage
        [Record.mk (TimestampField.valid (Timestamp.mk 2025 1)) (some 10) none none none,
         Record.mk (TimestampField.valid (Timestamp.mk 2025 1)) none none none none]
      = [Bucket.mk (MonthKey.ym 202501) 10] ∧
      specMean Record.cpu_usage
        [Record.mk (TimestampField.valid (Timestamp.mk 2025 1)) (some 10) none none none,
         Record.mk (TimestampField.valid (Timestamp.mk 2025 1)) none none none none] (MonthKey.ym 202501) = 5 ∧
      (10 : ℚ) ≠ 5 := by
  refine ⟨?_, ?_, by norm_num⟩
  · rw [aggregate, if_neg (by simp :
      ¬([Record.mk (TimestampField.valid (Timestamp.mk 2025 1)) (some 10) none none none,
         Record.mk (TimestampField.valid (Timestamp.mk 2025 1)) none none none none] = []))]
    norm_num [groupByMonth, insertRecord, recMonth, monthKey, pushVal,
      mkBucket, listAvg, List.insertionSort, List.orderedInsert, List.foldl]
  · norm_num [specMean, assigned, recMonth, monthKey]

/-- C7 counterexample: a record with a truthy but unparseable timestamp is
not dropped by the `if (!item.timestamp)` guard — `new Date` yields an
Invalid Date, its month key is `"NaN-NaN"`, and the record IS assigned to a
displayed bucket carrying its metric value.  Removing it changes the
aggregation from one bucket to none, refuting "assigned to no time bucket". -/
theorem claim7_invalid_timestamp_counterexample :
    aggregate Record.cpu_usage
        [Record.mk TimestampField.invalid (some 7) none none none]
      = [Bucket.mk MonthKey.nanKey 7] ∧
      aggregate Record.cpu_usage ([] : List Record) = [] := by
  refine ⟨?_, rfl⟩
  rw [aggregate, if_neg (by simp :
    ¬([Record.mk TimestampField.invalid (some 7) none none none] = []))]
  norm_num [groupByMonth, insertRecord, recMonth, pushVal, mkBucket, listAvg,
    List.insertionSort, List.orderedInsert, List.foldl]

/-- C7 (amended): a record whose timestamp is missing or empty (JS falsy) is
assigned to no time bucket — deleting it does not change the aggregation;
a record whose timestamp is present but unparseable is assigned to the single
invalid-date bucket with key `"NaN-NaN"`, which therefore appears among the
aggregated buckets; and in every case the record still counts toward the
whole-dataset total row count. -/
theorem claim7_timestamp_bucketing_amended :
    (∀ (f : Record → Option ℚ) (rs₁ rs₂ : List Record) (r : Record),
        r.timestamp = TimestampField.missing →
        aggregate f (rs₁ ++ r :: rs₂) = aggregate f (rs₁ ++ rs₂)) ∧
      (∀ (f : Record → Option ℚ) (rs : List Record) (r : Record), r ∈ rs →
        r.timestamp = TimestampField.invalid →
        ∃ b ∈ aggregate f rs, b.month = MonthKey.nanKey) ∧
      ∀ (rs₁ rs₂ : List Record) (r : Record),
        (calculateMetrics (rs₁ ++ r :: rs₂)).map Metrics.totalInputs
          = some (rs₁.length + rs₂.length + 1) := by
  refine ⟨fun f rs₁ rs₂ r h => aggregate_drop_missingTimestamp f rs₁ rs₂ r h, ?_, ?_⟩
  · intro f rs r hr hinv
    have hne : rs ≠ [] := List.ne_nil_of_mem hr
    have hassigned : r ∈ assigned rs MonthKey.nanKey := by
      rw [assigned, List.mem_filter]
      exact ⟨hr, by simp [recMonth, hinv]⟩
    have hkey : MonthKey.nanKey ∈ (groupByMonth f rs).map Prod.fst :=
      ((groupByMonth_inv f rs).2.1 MonthKey.nanKey).mpr
        (List.ne_nil_of_mem hassigned)
    obtain ⟨p, hp, hpk⟩ := List.mem_map.mp hkey
    refine ⟨mkBucket p, ?_, hpk⟩
    exact (aggregate_perm f rs hne).mem_iff.mpr (List.mem_map_of_mem mkBucket hp)
  · intro rs₁ rs₂ r
    rw [calculateMetrics, if_neg (by simp : ¬(rs₁ ++ r :: rs₂ = []))]
    simp [List.length_append]
    omega

theorem claim7_timestamp_bucketing_amended_witness :
    (Record.mk TimestampField.missing (some 3) none none none).timestamp
        = TimestampField.missing ∧
      aggregate Record.cpu_usage
          ([] ++ Record.mk TimestampField.missing (some 3) none none none ::
            [Record.mk (TimestampField.valid (Timestamp.mk 2025 1)) (some 4) none none none])
        = aggregate Record.cpu_usage
          ([] ++ [Record.mk (TimestampField.valid (Timestamp.mk 2025 1)) (some 4) none none none]) :=
  ⟨rfl,
    claim7_timestamp_bucketing_amended.1 Record.cpu_usage []
      [Record.mk (TimestampField.valid (Timestamp.mk 2025 1)) (some 4) none none none]
      (Record.mk TimestampField.missing (some 3) none none none) rfl⟩

/-- C4 (amended): in the daily view, the stored growth percentage of the
first entry is 0; for every later entry it is the value of the guarded
formula rounded to two decimals (`parseFloat(x.toFixed(2))`), where the guard
yields 0 whenever the previous value is less than or equal to 0 (the code
tests `prev > 0`, not `prev !== 0`), and otherwise the formula
`(current - previous) / previous * 100`. -/
theorem claim4_growth_formula_amended :
    (∀ rs : List Record, rs ≠ [] →
        ((dailyProcessed rs).getD 0 default).cpu_growth = 0) ∧
      (∀ (rs : List Record) (i : ℕ), i + 1 < rs.length →
        ((dailyProcessed rs).getD (i + 1) default).cpu_growth =
          round2 (dailyGrowth (jsOr (rs.getD i default).cpu_usage 0)
            (jsOr (rs.getD (i + 1) default).cpu_usage 0))) ∧
      (∀ prev cur : ℚ, prev ≤ 0 → dailyGrowth prev cur = 0) ∧
      (∀ prev cur : ℚ, 0 < prev → dailyGrowth prev cur = (cur - prev) / prev * 100) := by
  refine ⟨?_, ?_, ?_, ?_⟩
  · intro rs hne
    cases rs with
    | nil => exact absurd rfl hne
    | cons r rest =>
      rw [dailyProcessed, if_neg hne]
      simp only [List.getD_eq_get?, List.get?_map, List.get?_enum, List.get?_cons_zero,
        Option.map_some', Option.getD_some]
      show (mkDailyEntry none r).cpu_growth = 0
      simp [mkDailyEntry, round2_zero]
  · intro rs i hi
    have hne : rs ≠ [] := by
      intro h
      rw [h] at hi
      simp at hi
    have hi' : i < rs.length := Nat.lt_of_succ_lt hi
    rw [dailyProcessed, if_neg hne]
    rw [List.getD_eq_get?, List.get?_map, List.get?_enum, List.get?_eq_get hi,
      Option.map_some', Option.map_some', Option.getD_some]
    show (mkDailyEntry (rs.get? i) (rs.get ⟨i + 1, hi⟩)).cpu_growth = _
    rw [List.getD_eq_get?, List.getD_eq_get?, List.get?_eq_get hi, List.get?_eq_get hi',
      Option.getD_some, Option.getD_some]
    rfl
  · intro prev cur h
    rw [dailyGrowth, if_neg (not_lt.mpr h)]
  · intro prev cur h
    rw [dailyGrowth, if_pos h]

theorem claim4_growth_formula_amended_witness :
    ([Record.mk TimestampField.missing (some 40) none none none,
      Record.mk TimestampField.missing (some 50) none none none] ≠ ([] : List Record)) ∧
      ((dailyProcessed
          [Record.mk TimestampField.missing (some 40) none none none,
           Record.mk TimestampField.missing (some 50) none none none]).getD 0 default).cpu_growth = 0 :=
  ⟨by simp,
    claim4_growth_formula_amended.1
      [Record.mk TimestampField.missing (some 40) none none none,
       Record.mk TimestampField.missing (some 50) none none none] (by simp)⟩

/-- C4 counterexample: with a previous value of `-50` and a current value of
`50`, the claimed formula gives `(50 - (-50)) / (-50) * 100 = -200`, but the
code's `prev > 0` guard stores growth `0` for the second entry (the first
entry's 0 is as claimed). -/
theorem claim4_growth_formula_counterexample :
    ((dailyProcessed
        [Record.mk TimestampField.missing (some (-50)) none none none,
         Record.mk TimestampField.missing (some 50) none none none]).map DailyEntry.cpu_growth)
      = [0, 0] ∧
      ((50 : ℚ) - (-50)) / (-50) * 100 = -200 ∧ ((0 : ℚ) ≠ -200) := by
  refine ⟨?_, by norm_num, by norm_num⟩
  rw [dailyProcessed, if_neg (by simp :
    ¬([Record.mk TimestampField.missing (some (-50)) none none none,
       Record.mk TimestampField.missing (some 50) none none none] = []))]
  norm_num [List.enum, List.enumFrom, mkDailyEntry, dailyGrowth, jsOr, round2_zero,
    List.get?]

/-- C6 (amended): every derived computation modelled here is a pure function
of the loaded record sequence, except the capacity chart's simulated
`dailyInputs` series, which also depends on the `Math.random()` draws: all
capacity-entry fields other than `dailyInputs` are independent of the random
stream (and the remaining derived computations take no input besides the
records at all). -/
theorem claim6_derived_data_deterministic_amended (rand₁ rand₂ : ℕ → ℚ)
    (rs : List Record) :
    (capacityProcessed rand₁ rs).map CapEntry.metrics
      = (capacityProcessed rand₂ rs).map CapEntry.metrics := by
  by_cases h : rs = []
  · simp [capacityProcessed, h]
  · rw [capacityProcessed, if_neg h, capacityProcessed, if_neg h,
      List.map_map, List.map_map]
    exact List.map_congr_left fun p _ => rfl

/-- C6 counterexample: two computations of the capacity chart's series over
the same single-record dataset, with the `Math.random()` draws `0` and `1/2`
(both legal values in `[0, 1)`), produce different outputs: `dailyInputs`
comes out `550` in the first run and `750` in the second. -/
theorem claim6_derived_data_counterexample :
    capacityProcessed (fun _ => 0) [Record.mk TimestampField.missing (some 50) (some 50) none none]
      ≠ capacityProcessed (fun _ => 1/2) [Record.mk TimestampField.missing (some 50) (some 50) none none] := by
  have hL : (capacityProcessed (fun _ => 0)
      [Record.mk TimestampField.missing (some 50) (some 50) none none]).map CapEntry.dailyInputs
      = [550] := by
    rw [capacityProcessed, if_neg (by simp :
      ¬([Record.mk TimestampField.missing (some 50) (some 50) none none] = []))]
    norm_num [List.enum, List.enumFrom, mkCapEntry, jsOr, jsRound]
  have hR : (capacityProcessed (fun _ => 1/2)
      [Record.mk TimestampField.missing (some 50) (some 50) none none]).map CapEntry.dailyInputs
      = [750] := by
    rw [capacityProcessed, if_neg (by simp :
      ¬([Record.mk TimestampField.missing (some 50) (some 50) none none] = []))]
    norm_num [List.enum, List.enumFrom, mkCapEntry, jsOr, jsRound]
  intro h
  rw [h, hR] at hL
  exact absurd (List.head_eq_of_cons_eq hL) (by norm_num)

/-- C9: the empty record sequence (a header-only file) yields zero buckets,
and the maintenance heuristic yields its zero-input default output — the
empty task list its `if (!data.length)` guard defines — with no failure
(both functions are total). -/
theorem claim9_empty_dataset_defaults :
    (∀ f : Record → Option ℚ, aggregate f [] = []) ∧ maintenanceTasks [] = [] :=
  ⟨fun _ => rfl, rfl⟩

/-- C8: when parsing a file yields any diagnostics, ingestion reports a
single structured error carrying the first diagnostic message, the file halts
in the error state, and the loaded record sequence is left unchanged. -/
theorem claim8_parse_error_no_partial_commit (res : ParseResult)
    (current : List Record) (e : String) (rest : List String)
    (h : res.errors = e :: rest) :
    (parseComplete res).status = UploadStatus.error ∧
      (parseComplete res).err = some e ∧
      handleLoadData (parseComplete res) current = current := by
  simp [parseComplete, handleLoadData, h]

theorem claim8_parse_error_no_partial_commit_witness :
    (ParseResult.mk [] ["Too few fields"]).errors = "Too few fields" :: [] ∧
      handleLoadData (parseComplete (ParseResult.mk [] ["Too few fields"]))
          [Record.mk TimestampField.missing (some 1) none none none]
        = [Record.mk TimestampField.missing (some 1) none none none] :=
  ⟨rfl,
    (claim8_parse_error_no_partial_commit (ParseResult.mk [] ["Too few fields"])
      [Record.mk TimestampField.missing (some 1) none none none] "Too few fields" [] rfl).2.2⟩

end ForecastSense

